import Mathlib

/-!
Verification of `src/template.rs` of cargo-generate (template rendering core):
case-conversion filters, the template-engine wrapper, `substitute`
(VariableSet construction), and `walk_dir` (the rendering walk).

External collaborators (the `heck` case transforms, the `liquid` template
engine, `ProjectName`, the inclusion matcher, the progress bar) are modelled
from the spec's collaborator contracts; everything else is translated
directly from the source.
-/

set_option autoImplicit false

namespace Template

/-! ### Case transforms (external `heck` library)

Modelled from the spec: word-boundary splitting at non-alphanumeric
separators and at lower/digit-to-upper case transitions; kebab = lower-case
words joined by hyphens, snake = lower-case words joined by underscores,
camel/Pascal = capitalized words concatenated (§4.1). -/

def flushWord (w : List Char) (acc : List (List Char)) : List (List Char) :=
  if w.isEmpty then acc else acc ++ [w.reverse]

def splitWordsAux : List Char → List Char → List (List Char) → List (List Char)
  | [], w, acc => flushWord w acc
  | c :: cs, w, acc =>
    if ¬ c.isAlphanum then splitWordsAux cs [] (flushWord w acc)
    else
      match w with
      | [] => splitWordsAux cs [c] acc
      | p :: _ =>
        if c.isUpper && (p.isLower || p.isDigit) then
          splitWordsAux cs [c] (flushWord w acc)
        else
          splitWordsAux cs (c :: w) acc

def splitWords (s : String) : List String :=
  (splitWordsAux s.data [] []).map fun w => String.mk w

def lowerWord (s : String) : String := s.map Char.toLower

def capitalWord (s : String) : String :=
  match s.data with
  | [] => ""
  | c :: cs => String.mk (c.toUpper :: cs.map Char.toLower)

def to_kebab_case (s : String) : String :=
  String.intercalate "-" ((splitWords s).map lowerWord)

def to_snake_case (s : String) : String :=
  String.intercalate "_" ((splitWords s).map lowerWord)

def to_camel_case (s : String) : String :=
  String.join ((splitWords s).map capitalWord)

/-! ### Liquid values and the three case filters (template.rs lines 27–97) -/

/-- A liquid scalar value; non-string input is coerced to its string form by
`to_str`, as the filters do via `input.to_str()`. -/
inductive LValue
  | str (s : String)
  | int (n : Int)
  | bool (b : Bool)
  | nil
  deriving DecidableEq, Repr

def LValue.to_str : LValue → String
  | .str s => s
  | .int n => toString n
  | .bool b => if b then "true" else "false"
  | .nil => ""

/-- Source `KebabCaseFilter::evaluate` (template.rs lines 39–49). -/
def KebabCaseFilter.evaluate (input : LValue) : Except String LValue :=
  .ok (.str (to_kebab_case input.to_str))

/-- Source `PascalCaseFilter::evaluate` (template.rs lines 63–73); uses `to_camel_case`. -/
def PascalCaseFilter.evaluate (input : LValue) : Except String LValue :=
  .ok (.str (to_camel_case input.to_str))

/-- Source `SnakeCaseFilter::evaluate` (template.rs lines 87–97). -/
def SnakeCaseFilter.evaluate (input : LValue) : Except String LValue :=
  .ok (.str (to_snake_case input.to_str))

/-- A filter registration: the liquid name it is registered under and its
evaluation function. -/
structure FilterDef where
  fname : String
  feval : LValue → Except String LValue

/-- Modelled from the spec: the built-in `Date` filter may fail on
type-incompatible input (§4.2); no date values arise in this development. -/
def dateFilter : LValue → Except String LValue :=
  fun _ => .error "date: invalid input"

/-- Modelled from the spec: the built-in `Capitalize` filter (§2). -/
def capitalizeFilter : LValue → Except String LValue :=
  fun v => .ok (.str (capitalWord v.to_str))

/-- Source `engine()` (template.rs lines 16–25): the registered filters, in
registration order, each under the name in its `#[filter(name = ...)]`
attribute.  NOTE: the source registers all three case filters under the
name "kebab_case" (template.rs lines 29, 53, 77). -/
def engine : List FilterDef :=
  [ ⟨"date", dateFilter⟩,
    ⟨"capitalize", capitalizeFilter⟩,
    ⟨"kebab_case", KebabCaseFilter.evaluate⟩,
    ⟨"kebab_case", PascalCaseFilter.evaluate⟩,
    ⟨"kebab_case", SnakeCaseFilter.evaluate⟩ ]

def registeredFilterNames : List String := engine.map FilterDef.fname

/-- Filter lookup in the built parser: the registry is a map keyed by name,
so a later registration under the same name replaces an earlier one. -/
def lookupFilter (n : String) : Option (LValue → Except String LValue) :=
  (engine.reverse.find? fun f => f.fname == n).map FilterDef.feval

/-! ### Template documents (external `liquid` engine)

Modelled from the spec: `compile` fails on malformed placeholder syntax,
`render` fails on an unregistered filter or a failing filter (§4.2).  Only
expression placeholders are modelled (tag syntax is delegated by the spec
and unused by the templates in scope). -/

def obrace : Char := '\x7b'
def cbrace : Char := '\x7d'

def openDelim : List Char := [obrace, obrace]
def closeDelim : List Char := [cbrace, cbrace]

def startsWithL : List Char → List Char → Bool
  | [], _ => true
  | _ :: _, [] => false
  | d :: ds, c :: cs => d == c && startsWithL ds cs

/-- Split a character list at the first occurrence of `delim`, returning the
text before it and the text after it. -/
def splitFirst (delim : List Char) : List Char → Option (List Char × List Char)
  | [] => none
  | c :: cs =>
    if startsWithL delim (c :: cs) then some ([], (c :: cs).drop delim.length)
    else
      match splitFirst delim cs with
      | none => none
      | some (p, r) => some (c :: p, r)

def splitOnChar (c : Char) : List Char → List (List Char)
  | [] => [[]]
  | x :: xs =>
    let r := splitOnChar c xs
    if x == c then [] :: r
    else
      match r with
      | [] => [[x]]
      | h :: t => (x :: h) :: t

def trimSpaces (l : List Char) : List Char :=
  ((l.dropWhile fun c => c == ' ').reverse.dropWhile fun c => c == ' ').reverse

/-- A compiled template is a sequence of chunks: literal text, or a
placeholder expression (a variable followed by a pipeline of filter names). -/
inductive Chunk
  | text (s : String)
  | expr (v : String) (filters : List String)
  deriving DecidableEq, Repr

def parseExpr (inner : List Char) : Except String Chunk :=
  match (splitOnChar '|' inner).map trimSpaces with
  | [] => .error "empty placeholder"
  | v :: fs =>
    if v.isEmpty || fs.any List.isEmpty then .error "malformed placeholder"
    else .ok (.expr (String.mk v) (fs.map fun w => String.mk w))

def parseChunks (fuel : Nat) (s : List Char) : Except String (List Chunk) :=
  match fuel with
  | 0 => .error "out of fuel"
  | fuel + 1 =>
    match splitFirst openDelim s with
    | none => .ok [.text (String.mk s)]
    | some (pre, rest) =>
      match splitFirst closeDelim rest with
      | none => .error "unbalanced delimiters"
      | some (inner, rest2) =>
        match parseExpr inner with
        | .error m => .error m
        | .ok e =>
          match parseChunks fuel rest2 with
          | .error m => .error m
          | .ok cs => .ok (.text (String.mk pre) :: e :: cs)

/-- Source `compile`: parse a text blob into a template document. -/
def parseTemplate (s : String) : Except String (List Chunk) :=
  parseChunks (s.length + 1) s.data

/-- The VariableSet: an ordered mapping from variable name to value
(`liquid::value::Object`). -/
abbrev VariableSet := List (String × LValue)

def lookupVar (vars : VariableSet) (k : String) : Option LValue :=
  (vars.find? fun p => p.1 == k).map Prod.snd

def applyFilters : List String → LValue → Except String LValue
  | [], v => .ok v
  | f :: fs, v =>
    match lookupFilter f with
    | none => .error ("unknown filter " ++ f)
    | some ev =>
      match ev v with
      | .error m => .error m
      | .ok v2 => applyFilters fs v2

def renderChunk (vars : VariableSet) : Chunk → Except String String
  | .text t => .ok t
  | .expr v fs =>
    match lookupVar vars v with
    | none => .error ("unknown variable " ++ v)
    | some val =>
      match applyFilters fs val with
      | .error m => .error m
      | .ok r => .ok r.to_str

def renderChunks (vars : VariableSet) : List Chunk → Except String String
  | [] => .ok ""
  | c :: cs =>
    match renderChunk vars c with
    | .error m => .error m
    | .ok s =>
      match renderChunks vars cs with
      | .error m => .error m
      | .ok r => .ok (s ++ r)

/-- Source `compile` followed by `render` against a VariableSet. -/
def engineRender (vars : VariableSet) (s : String) : Except String String :=
  match parseTemplate s with
  | .error m => .error m
  | .ok cs => renderChunks vars cs

/-! ### `substitute` (template.rs lines 99–119) -/

/-- Modelled from the spec: the `ProjectName` collaborator
(`crate::projectname`, not part of the shown source) supplies `raw`,
`kebab_case` and `snake_case` accessors for the validated project
identifier (§6); the core never re-validates them. -/
structure ProjectName where
  raw : String
  kebab_case : String
  snake_case : String

/-- Source `substitute` (template.rs lines 99–119).  The fallible
`authors::get_authors()` collaborator call is passed in as its result. -/
def substitute (name : ProjectName) (force : Bool)
    (authorsResult : Except String (String × String)) :
    Except String VariableSet :=
  let project_name := if force then name.raw else name.kebab_case
  match authorsResult with
  | .error e => .error e
  | .ok (username, authors) =>
    .ok [("project-name", .str project_name),
         ("crate_name", .str name.snake_case),
         ("authors", .str authors),
         ("username", .str username)]

/-! ### `walk_dir` (template.rs lines 121–195)

The filesystem is modelled as a store of path/content pairs and the
enumeration as a given list of entries; the progress bar as the list of
messages set plus a `finished` flag; each filesystem and rendering action
is also recorded in an event trace. -/

/-- A filesystem path as walkdir yields it: either valid UTF-8, or a
non-UTF-8 byte path (`Path::to_str` returns `None`), identified opaquely. -/
inductive RawPath
  | utf8 (s : String)
  | nonUtf8 (tag : Nat)
  deriving DecidableEq, Repr

/-- Source `Path::display()`: lossy string form, defined for every path. -/
def RawPath.display : RawPath → String
  | .utf8 s => s
  | .nonUtf8 t => "<non-utf8:" ++ toString t ++ ">"

/-- Source `str::contains` on a substring needle. -/
def containsSub (needle : String) (s : String) : Bool :=
  (splitFirst needle.data s.data).isSome

/-- Source `is_git_metadata` (template.rs lines 131–137):
`path.to_str().map(|s| s.contains(".git")).unwrap_or(false)`. -/
def is_git_metadata : RawPath → Bool
  | .utf8 s => containsSub ".git" s
  | .nonUtf8 _ => false

/-- A walked directory entry: its path and `file_type().is_dir()`. -/
structure Entry where
  path : RawPath
  isDir : Bool
  deriving DecidableEq, Repr

/-- Observable events of the walk, in the order they are performed. -/
inductive Ev
  | setMsg (m : String)
  | contentRendered (p : RawPath)
  | wrote (p : RawPath)
  | pathRendered (p : RawPath)
  | renamed (oldPath newPath : RawPath)
  deriving DecidableEq, Repr

def Ev.isContentPhase : Ev → Bool
  | .setMsg _ => true
  | .contentRendered _ => true
  | .wrote _ => true
  | .pathRendered _ => false
  | .renamed _ _ => false

structure WalkState where
  files : List (RawPath × String)
  messages : List String
  finished : Bool
  trace : List Ev
  deriving DecidableEq, Repr

/-- Error kinds of the walk, tagged by the step that produced them. -/
inductive ErrKind
  | relPathErr
  | readFile
  | contentParse (m : String)
  | contentRender (m : String)
  | pathParse (m : String)
  | pathRender (m : String)
  deriving DecidableEq, Repr

/-- A surfaced error: either propagated bare by `?`, or wrapped by
`with_context` with a message naming a file path. -/
inductive WalkError
  | raw (k : ErrKind)
  | annotated (path : String) (k : ErrKind)
  deriving DecidableEq, Repr

def WalkError.isAnnotated : WalkError → Bool
  | .raw _ => false
  | .annotated _ _ => true

/-- Modelled from the spec: the `InclusionMatcher` collaborator
(`crate::include_exclude`, not part of the shown source) exposes
`should_include(relative_path) -> boolean` (§6); it is carried here as an
abstract predicate on the relative path. -/
structure WalkCtx where
  project_dir : String
  template : VariableSet
  matcher : RawPath → Bool

/-- Source `Path::strip_prefix(project_dir)`.  For UTF-8 paths this strips the
root directory plus separator; walkdir guarantees every yielded path
extends the root, and the operation works at byte level, so for a
non-UTF-8 path it succeeds with the (still non-UTF-8) remainder. -/
def stripRel (dir : String) : RawPath → Option RawPath
  | .utf8 p =>
    if startsWithL (dir.data ++ ['/']) p.data then
      some (.utf8 (String.mk (p.data.drop (dir.data.length + 1))))
    else none
  | .nonUtf8 t => some (.nonUtf8 t)

def lookupFile (files : List (RawPath × String)) (p : RawPath) : Option String :=
  (files.find? fun f => f.1 == p).map Prod.snd

/-- Source `fs::write(filename, new_contents)`. -/
def writeFile (files : List (RawPath × String)) (p : RawPath) (c : String) :
    List (RawPath × String) :=
  files.map fun f => if f.1 == p then (p, c) else f

/-- Source `fs::rename(filename, parsed_filename)`. -/
def renameFile (files : List (RawPath × String)) (oldPath newPath : RawPath) :
    List (RawPath × String) :=
  files.map fun f => if f.1 == oldPath then (newPath, f.2) else f

/-- Source `pbar.set_message(...)`. -/
def setMsg (st : WalkState) (m : String) : WalkState :=
  { st with messages := st.messages ++ [m], trace := st.trace ++ [.setMsg m] }

/-- Source `pbar.finish_and_clear()`. -/
def finish_and_clear (st : WalkState) : WalkState :=
  { st with finished := true }

/-- Outcome of processing: normal result, an error returned to the caller,
or a Rust panic (`expect`). -/
inductive StepOutcome
  | ok (st : WalkState)
  | fail (e : WalkError) (st : WalkState)
  | panicked (msg : String) (st : WalkState)
  deriving DecidableEq, Repr

def StepOutcome.state : StepOutcome → WalkState
  | .ok st => st
  | .fail _ st => st
  | .panicked _ st => st

/-- The content-substitution phase of one entry (template.rs lines
156–177): when the matcher includes the relative path, read and compile
the file (`parse_file`, errors bare), render it (`with_context` annotates
the error with the filename), and write the result back. -/
def contentPhase (ctx : WalkCtx) (p : RawPath) (rel : RawPath)
    (st : WalkState) : Except WalkError WalkState :=
  if ctx.matcher rel then
    match lookupFile st.files p with
    | none => .error (.raw .readFile)
    | some c =>
      match parseTemplate c with
      | .error m => .error (.raw (.contentParse m))
      | .ok doc =>
        match renderChunks ctx.template doc with
        | .error m => .error (.annotated p.display (.contentRender m))
        | .ok out =>
          .ok { st with
                files := writeFile st.files p out,
                trace := st.trace ++ [.contentRendered p, .wrote p] }
  else .ok st

/-- The rename phase of one entry (template.rs lines 179–190):
`filename.to_str().expect("filename as string")` panics on a non-UTF-8
path; `parse` and `render` of the path string propagate errors bare; the
rename commits the rendered path. -/
def renamePhase (ctx : WalkCtx) (p : RawPath) (st : WalkState) : StepOutcome :=
  match p with
  | .nonUtf8 _ => .panicked "filename as string" st
  | .utf8 ps =>
    match parseTemplate ps with
    | .error m => .fail (.raw (.pathParse m)) st
    | .ok doc =>
      match renderChunks ctx.template doc with
      | .error m => .fail (.raw (.pathRender m)) st
      | .ok newPath =>
        .ok { st with
              files := renameFile st.files p (.utf8 newPath),
              trace := st.trace ++ [.pathRendered p, .renamed p (.utf8 newPath)] }

/-- The loop body of `walk_dir` for one entry (template.rs lines 146–191):
skip directories and git metadata, compute the relative path (bare `?`),
report progress, then the content phase and the rename phase. -/
def walkStep (ctx : WalkCtx) (e : Entry) (st : WalkState) : StepOutcome :=
  if e.isDir || is_git_metadata e.path then .ok st
  else
    match stripRel ctx.project_dir e.path with
    | none => .fail (.raw .relPathErr) st
    | some rel =>
      let st1 := setMsg st e.path.display
      match contentPhase ctx e.path rel st1 with
      | .error err => .fail err st1
      | .ok st2 => renamePhase ctx e.path st2

def runEntries (ctx : WalkCtx) : List Entry → WalkState → StepOutcome
  | [], st => .ok st
  | e :: rest, st =>
    match walkStep ctx e st with
    | .ok st2 => runEntries ctx rest st2
    | .fail err st2 => .fail err st2
    | .panicked m st2 => .panicked m st2

/-- Source `walk_dir` (template.rs lines 121–195): process every entry in order,
stopping at the first failure; `finish_and_clear` runs only after all
entries succeed. -/
def walk_dir (ctx : WalkCtx) (entries : List Entry) (st : WalkState) :
    StepOutcome :=
  match runEntries ctx entries st with
  | .ok st2 => .ok (finish_and_clear st2)
  | .fail err st2 => .fail err st2
  | .panicked m st2 => .panicked m st2


/-! ## Helper lemmas -/

theorem str_append_nil (s : String) : s ++ "" = s := by
  apply String.ext
  rw [String.data_append]
  simp

theorem renameFile_self (files : List (RawPath × String)) (p : RawPath) :
    renameFile files p p = files := by
  unfold renameFile
  induction files with
  | nil => rfl
  | cons a t ih =>
    simp only [List.map_cons, ih]
    congr 1
    split
    next h => rw [← eq_of_beq h]
    next => rfl

theorem renameFile_map_snd (files : List (RawPath × String)) (o n : RawPath) :
    (renameFile files o n).map Prod.snd = files.map Prod.snd := by
  unfold renameFile
  induction files with
  | nil => rfl
  | cons a t ih =>
    simp only [List.map_cons, ih]
    congr 1
    split <;> rfl


/-! ## Claim theorems -/

/-- Scenario B template text: `name = "{{crate_name | snake_case}}"`
(braces written with escapes). -/
def snakeScenario : String := "name = \"\x7b\x7bcrate_name | snake_case\x7d\x7d\""

/-- C1 (code bug): the three case filters are NOT exposed under distinct
names — the source registers every one of them under the liquid name
"kebab_case" (template.rs lines 29, 53, 77), contradicting the struct
names and `description` attributes of the Pascal and Snake parsers.
Consequently rendering `name = "{{crate_name | snake_case}}"` against a
VariableSet with crate_name = "my_app" fails with an unknown-filter error
instead of producing `name = "my_app"`. -/
theorem case_filters_share_one_name_so_snake_case_render_fails :
    registeredFilterNames =
      ["date", "capitalize", "kebab_case", "kebab_case", "kebab_case"] ∧
    engineRender [("crate_name", .str "my_app")] snakeScenario =
      .error "unknown filter snake_case" :=
  ⟨rfl, rfl⟩

/-- C2: the VariableSet built by `substitute` maps "project-name" to the
raw identifier when the force flag is set and to its kebab-case
normalization otherwise, and maps "crate_name" to the snake_case form in
both cases, independent of the force flag. -/
theorem substitute_project_name_and_crate_name (name : ProjectName)
    (force : Bool) (username authors : String) :
    ∃ vs, substitute name force (.ok (username, authors)) = .ok vs ∧
      lookupVar vs "project-name" =
        some (.str (if force then name.raw else name.kebab_case)) ∧
      lookupVar vs "crate_name" = some (.str name.snake_case) :=
  ⟨_, rfl, rfl, rfl⟩

/-- C7: each of the three case filters is total: for every input value
(non-string input coerced to its string form by `to_str`), `evaluate`
returns `Ok` with a scalar string result, and the empty string maps to
the empty string. -/
theorem case_filters_total_and_scalar (v : LValue) :
    (∃ s, KebabCaseFilter.evaluate v = .ok (.str s)) ∧
    (∃ s, PascalCaseFilter.evaluate v = .ok (.str s)) ∧
    (∃ s, SnakeCaseFilter.evaluate v = .ok (.str s)) ∧
    KebabCaseFilter.evaluate (.str "") = .ok (.str "") ∧
    PascalCaseFilter.evaluate (.str "") = .ok (.str "") ∧
    SnakeCaseFilter.evaluate (.str "") = .ok (.str "") :=
  ⟨⟨_, rfl⟩, ⟨_, rfl⟩, ⟨_, rfl⟩, rfl, rfl, rfl⟩

/-- C4: every non-directory entry whose (UTF-8) path contains ".git" as a
substring anywhere — not only as a path segment — is skipped entirely:
the walk step leaves the state untouched (no message, no write, no
rename). -/
theorem git_metadata_entry_skipped (ctx : WalkCtx) (s : String) (d : Bool)
    (st : WalkState) (h : containsSub ".git" s = true) :
    walkStep ctx ⟨.utf8 s, d⟩ st = .ok st := by
  unfold walkStep
  simp [is_git_metadata, h]

/-- Witness for C4 at a path where ".git" occurs only as a substring of a
component (".gitignore"), with a matcher that includes everything. -/
theorem git_metadata_entry_skipped_witness :
    containsSub ".git" "proj/sub/.gitignore" = true ∧
    walkStep ⟨"proj", [], fun _ => true⟩ ⟨.utf8 "proj/sub/.gitignore", false⟩
      ⟨[], [], false, []⟩ = .ok ⟨[], [], false, []⟩ :=
  ⟨by decide,
   git_metadata_entry_skipped ⟨"proj", [], fun _ => true⟩ "proj/sub/.gitignore"
     false ⟨[], [], false, []⟩ (by decide)⟩

/-- C10: a walked non-directory entry with a non-UTF-8 path is never
classified as version-control metadata, and (here: when the matcher
excludes its relative path, so the content phase succeeds) the walk does
not surface a PathError or IOError for it but panics at the
filename-to-string conversion (`expect("filename as string")`, template.rs
line 181) before the path-render step. -/
theorem nonutf8_path_panics_not_error (ctx : WalkCtx) (t : Nat)
    (st : WalkState) (hm : ctx.matcher (.nonUtf8 t) = false) :
    is_git_metadata (.nonUtf8 t) = false ∧
    walkStep ctx ⟨.nonUtf8 t, false⟩ st =
      .panicked "filename as string" (setMsg st (RawPath.nonUtf8 t).display) ∧
    walk_dir ctx [⟨.nonUtf8 t, false⟩] st =
      .panicked "filename as string" (setMsg st (RawPath.nonUtf8 t).display) := by
  have h2 : walkStep ctx ⟨.nonUtf8 t, false⟩ st =
      .panicked "filename as string" (setMsg st (RawPath.nonUtf8 t).display) := by
    simp [walkStep, is_git_metadata, stripRel, contentPhase, hm, renamePhase]
  exact ⟨rfl, h2, by simp [walk_dir, runEntries, h2]⟩

/-- Witness for C10 at a concrete non-UTF-8 entry. -/
theorem nonutf8_path_panics_not_error_witness :
    is_git_metadata (.nonUtf8 0) = false ∧
    walkStep ⟨"p", [], fun _ => false⟩ ⟨.nonUtf8 0, false⟩ ⟨[], [], false, []⟩ =
      .panicked "filename as string"
        (setMsg ⟨[], [], false, []⟩ (RawPath.nonUtf8 0).display) ∧
    walk_dir ⟨"p", [], fun _ => false⟩ [⟨.nonUtf8 0, false⟩] ⟨[], [], false, []⟩ =
      .panicked "filename as string"
        (setMsg ⟨[], [], false, []⟩ (RawPath.nonUtf8 0).display) :=
  nonutf8_path_panics_not_error ⟨"p", [], fun _ => false⟩ 0 ⟨[], [], false, []⟩ rfl


theorem parseChunks_of_no_delim (fuel : Nat) (l : List Char)
    (h : splitFirst openDelim l = none) :
    parseChunks (fuel + 1) l = .ok [.text (String.mk l)] := by
  unfold parseChunks
  rw [h]

/-- C8: rendering a text (file content or path string) that contains no
placeholder syntax returns the input unchanged, and for such a path the
rename step is an identity operation (renaming the path to itself leaves
the file store unchanged). -/
theorem render_without_placeholders_is_identity (vars : VariableSet)
    (s : String) (files : List (RawPath × String))
    (h : splitFirst openDelim s.data = none) :
    engineRender vars s = .ok s ∧
    renameFile files (.utf8 s) (.utf8 s) = files := by
  have hp : parseTemplate s = .ok [.text s] := by
    unfold parseTemplate
    rw [parseChunks_of_no_delim s.length s.data h]
  refine ⟨?_, renameFile_self files (.utf8 s)⟩
  unfold engineRender
  rw [hp]
  show renderChunks vars [.text s] = .ok s
  simp [renderChunks, renderChunk, str_append_nil]

/-- Witness for C8 at the literal path "README.md". -/
theorem render_without_placeholders_is_identity_witness :
    engineRender [("project-name", .str "my-app")] "README.md" =
      .ok "README.md" ∧
    renameFile [(.utf8 "README.md", "hello")] (.utf8 "README.md")
      (.utf8 "README.md") = [(.utf8 "README.md", "hello")] :=
  render_without_placeholders_is_identity [("project-name", .str "my-app")]
    "README.md" [(.utf8 "README.md", "hello")] (by decide)


/-- C5 (matcher modelled from the spec, §6): for a non-directory, non-git
entry whose relative path the matcher excludes, the walk step never
touches the file's content — the multiset of stored contents is unchanged
— while the entry's path is still rendered and the entry renamed to the
rendered path: filename substitution is not gated by the matcher. -/
theorem matcher_excluded_keeps_content_but_renames (ctx : WalkCtx)
    (s s2 : String) (rel : RawPath) (st : WalkState)
    (hgit : containsSub ".git" s = false)
    (hrel : stripRel ctx.project_dir (.utf8 s) = some rel)
    (hm : ctx.matcher rel = false)
    (hrender : engineRender ctx.template s = .ok s2) :
    ∃ st2, walkStep ctx ⟨.utf8 s, false⟩ st = .ok st2 ∧
      st2.files = renameFile st.files (.utf8 s) (.utf8 s2) ∧
      st2.files.map Prod.snd = st.files.map Prod.snd := by
  obtain ⟨doc, h1, h2⟩ :
      ∃ doc, parseTemplate s = .ok doc ∧
        renderChunks ctx.template doc = .ok s2 := by
    unfold engineRender at hrender
    cases hq : parseTemplate s with
    | error m => rw [hq] at hrender; exact absurd hrender (by simp)
    | ok doc => rw [hq] at hrender; exact ⟨doc, rfl, hrender⟩
  have hstep : walkStep ctx ⟨.utf8 s, false⟩ st = .ok
      { files := renameFile st.files (.utf8 s) (.utf8 s2),
        messages := st.messages ++ [s],
        finished := st.finished,
        trace := (st.trace ++ [.setMsg s]) ++
          [.pathRendered (.utf8 s), .renamed (.utf8 s) (.utf8 s2)] } := by
    unfold walkStep
    simp [is_git_metadata, hgit, hrel, contentPhase, hm, renamePhase, h1, h2,
      setMsg, RawPath.display]
  exact ⟨_, hstep, rfl, renameFile_map_snd st.files (.utf8 s) (.utf8 s2)⟩

/-- Witness for C5: an excluded SVG whose name carries a placeholder. -/
theorem matcher_excluded_keeps_content_but_renames_witness :
    ∃ st2,
      walkStep ⟨"p", [("project-name", .str "my-app")], fun _ => false⟩
        ⟨.utf8 "p/\x7b\x7bproject-name\x7d\x7d.svg", false⟩
        ⟨[(.utf8 "p/\x7b\x7bproject-name\x7d\x7d.svg", "binary-bytes")], [], false, []⟩
        = .ok st2 ∧
      st2.files =
        renameFile [(.utf8 "p/\x7b\x7bproject-name\x7d\x7d.svg", "binary-bytes")]
          (.utf8 "p/\x7b\x7bproject-name\x7d\x7d.svg") (.utf8 "p/my-app.svg") ∧
      st2.files.map Prod.snd =
        [(RawPath.utf8 "p/\x7b\x7bproject-name\x7d\x7d.svg", "binary-bytes")].map
          Prod.snd :=
  matcher_excluded_keeps_content_but_renames
    ⟨"p", [("project-name", .str "my-app")], fun _ => false⟩
    "p/\x7b\x7bproject-name\x7d\x7d.svg" "p/my-app.svg"
    (.utf8 "\x7b\x7bproject-name\x7d\x7d.svg")
    ⟨[(.utf8 "p/\x7b\x7bproject-name\x7d\x7d.svg", "binary-bytes")], [], false, []⟩
    (by decide) (by decide) rfl rfl


theorem contentPhase_error_shape (ctx : WalkCtx) (p rel : RawPath)
    (st : WalkState) (err : WalkError)
    (h : contentPhase ctx p rel st = .error err) :
    err = .raw .readFile ∨ (∃ m, err = .raw (.contentParse m)) ∨
    (∃ m, err = .annotated p.display (.contentRender m)) := by
  unfold contentPhase at h
  split at h
  · split at h
    · injection h with h
      exact Or.inl h.symm
    · split at h
      · injection h with h
        exact Or.inr (Or.inl ⟨_, h.symm⟩)
      · split at h
        · injection h with h
          exact Or.inr (Or.inr ⟨_, h.symm⟩)
        · exact absurd h (by simp)
  · exact absurd h (by simp)

theorem renamePhase_fail_shape (ctx : WalkCtx) (p : RawPath)
    (st st2 : WalkState) (err : WalkError)
    (h : renamePhase ctx p st = .fail err st2) :
    (∃ m, err = .raw (.pathParse m)) ∨ (∃ m, err = .raw (.pathRender m)) := by
  unfold renamePhase at h
  split at h
  · exact absurd h (by simp)
  · split at h
    · injection h with h _
      exact Or.inl ⟨_, h.symm⟩
    · split at h
      · injection h with h _
        exact Or.inr ⟨_, h.symm⟩
      · exact absurd h (by simp)

/-- C3 amended: an error surfaced by the walk step carries a file-path
annotation exactly for the content-render step (`with_context`, template.rs
lines 161–168; in the source the content write and the rename are likewise
annotated, but those operations do not fail in this model); errors from
content compile (`parse_file`), from rendering the path string, and from
the relative-path computation propagate bare, with no path annotation
(template.rs lines 153, 159, 182 use a bare `?`). -/
theorem walk_errors_annotated_only_for_content_render (ctx : WalkCtx)
    (e : Entry) (st st2 : WalkState) (err : WalkError)
    (h : walkStep ctx e st = .fail err st2) :
    (∃ m, err = .annotated e.path.display (.contentRender m)) ∨
    (err = .raw .relPathErr ∨ err = .raw .readFile ∨
     (∃ m, err = .raw (.contentParse m)) ∨
     (∃ m, err = .raw (.pathParse m)) ∨
     (∃ m, err = .raw (.pathRender m))) := by
  unfold walkStep at h
  split at h
  · exact absurd h (by simp)
  · split at h
    · injection h with h _
      exact Or.inr (Or.inl h.symm)
    · dsimp only at h
      split at h
      · rename_i err2 heq
        injection h with h _
        subst h
        rcases contentPhase_error_shape _ _ _ _ _ heq with h1 | h1 | h1
        · exact Or.inr (Or.inr (Or.inl h1))
        · exact Or.inr (Or.inr (Or.inr (Or.inl h1)))
        · exact Or.inl h1
      · rcases renamePhase_fail_shape _ _ _ _ _ h with h1 | h1
        · exact Or.inr (Or.inr (Or.inr (Or.inr (Or.inl h1))))
        · exact Or.inr (Or.inr (Or.inr (Or.inr (Or.inr h1))))

def c3Path : RawPath := .utf8 "p/\x7b\x7bproject-name | snake_case\x7d\x7d"

def c3Ctx : WalkCtx := ⟨"p", [("project-name", .str "x")], fun _ => false⟩

def c3State : WalkState := ⟨[(c3Path, "hello")], [], false, []⟩

/-- C3 counterexample: a concrete entry whose path render fails (the file
name carries a placeholder naming the unregistered filter "snake_case");
the surfaced error is propagated bare by template.rs line 182 and carries
no file-path annotation, refuting the claim that every surfaced error is
annotated with the offending path. -/
theorem walk_error_surfaced_without_path_counterexample :
    walkStep c3Ctx ⟨c3Path, false⟩ c3State =
      .fail (.raw (.pathRender "unknown filter snake_case"))
        (setMsg c3State c3Path.display) ∧
    (WalkError.raw (.pathRender "unknown filter snake_case")).isAnnotated
      = false :=
  ⟨rfl, rfl⟩

/-- Witness for the amended C3 at the same concrete failing entry. -/
theorem walk_errors_annotated_only_for_content_render_witness :
    (∃ m, WalkError.raw (ErrKind.pathRender "unknown filter snake_case") =
      .annotated (RawPath.display c3Path) (.contentRender m)) ∨
    (WalkError.raw (ErrKind.pathRender "unknown filter snake_case") =
        .raw .relPathErr ∨
     WalkError.raw (ErrKind.pathRender "unknown filter snake_case") =
        .raw .readFile ∨
     (∃ m, WalkError.raw (ErrKind.pathRender "unknown filter snake_case") =
        .raw (.contentParse m)) ∨
     (∃ m, WalkError.raw (ErrKind.pathRender "unknown filter snake_case") =
        .raw (.pathParse m)) ∨
     (∃ m, WalkError.raw (ErrKind.pathRender "unknown filter snake_case") =
        .raw (.pathRender m))) :=
  walk_errors_annotated_only_for_content_render c3Ctx ⟨c3Path, false⟩ c3State
    (setMsg c3State c3Path.display)
    (.raw (.pathRender "unknown filter snake_case")) rfl


theorem contentPhase_ok_trace (ctx : WalkCtx) (p rel : RawPath)
    (st st2 : WalkState) (h : contentPhase ctx p rel st = .ok st2) :
    ∃ δ, st2.trace = st.trace ++ δ ∧ ∀ ev ∈ δ, ev.isContentPhase = true := by
  unfold contentPhase at h
  split at h
  · split at h
    · exact absurd h (by simp)
    · split at h
      · exact absurd h (by simp)
      · split at h
        · exact absurd h (by simp)
        · injection h with h
          refine ⟨[.contentRendered p, .wrote p], by rw [← h], ?_⟩
          intro ev hev
          fin_cases hev <;> rfl
  · injection h with h
    exact ⟨[], by rw [← h, List.append_nil],
      fun ev hev => absurd hev (List.not_mem_nil ev)⟩

theorem renamePhase_ok_trace (ctx : WalkCtx) (p : RawPath)
    (st st2 : WalkState) (h : renamePhase ctx p st = .ok st2) :
    ∃ p2, st2.trace = st.trace ++ [.pathRendered p, .renamed p p2] := by
  unfold renamePhase at h
  split at h
  · exact absurd h (by simp)
  · split at h
    · exact absurd h (by simp)
    · split at h
      · exact absurd h (by simp)
      · injection h with h
        exact ⟨_, by rw [← h]⟩

/-- C9: for every entry the walk processes (skipped entries leave the trace
unchanged), the events of the content phase — progress message, content
render, content write — all occur before the path render and the rename of
that same entry, which close the entry's event block: content is written to
the original path before the entry is moved. -/
theorem content_ops_precede_rename (ctx : WalkCtx) (e : Entry)
    (st st2 : WalkState) (h : walkStep ctx e st = .ok st2) :
    st2.trace = st.trace ∨
    ∃ pre p p2,
      st2.trace = st.trace ++ (pre ++ [.pathRendered p, .renamed p p2]) ∧
      ∀ ev ∈ pre, ev.isContentPhase = true := by
  unfold walkStep at h
  split at h
  · left
    injection h with h
    rw [h]
  · split at h
    · exact absurd h (by simp)
    · dsimp only at h
      split at h
      · exact absurd h (by simp)
      · rename_i st3 heq
        right
        obtain ⟨δ, hδ, hδc⟩ := contentPhase_ok_trace _ _ _ _ _ heq
        obtain ⟨p2, hp2⟩ := renamePhase_ok_trace _ _ _ _ h
        refine ⟨.setMsg e.path.display :: δ, e.path, p2, ?_, ?_⟩
        · rw [hp2, hδ]
          simp [setMsg, List.append_assoc]
        · intro ev hev
          rcases List.mem_cons.mp hev with rfl | hev2
          · rfl
          · exact hδc ev hev2

def c9Ctx : WalkCtx := ⟨"p", [], fun _ => true⟩

def c9State : WalkState := ⟨[(.utf8 "p/a", "hi")], [], false, []⟩

def c9Out : WalkState :=
  ⟨[(.utf8 "p/a", "hi")], ["p/a"], false,
   [.setMsg "p/a", .contentRendered (.utf8 "p/a"), .wrote (.utf8 "p/a"),
    .pathRendered (.utf8 "p/a"), .renamed (.utf8 "p/a") (.utf8 "p/a")]⟩

/-- Witness for C9 at a concrete included entry. -/
theorem content_ops_precede_rename_witness :
    c9Out.trace = c9State.trace ∨
    ∃ pre p p2,
      c9Out.trace = c9State.trace ++ (pre ++ [.pathRendered p, .renamed p p2]) ∧
      ∀ ev ∈ pre, ev.isContentPhase = true :=
  content_ops_precede_rename c9Ctx ⟨.utf8 "p/a", false⟩ c9State c9Out rfl


theorem contentPhase_ok_finished (ctx : WalkCtx) (p rel : RawPath)
    (st st2 : WalkState) (h : contentPhase ctx p rel st = .ok st2) :
    st2.finished = st.finished := by
  unfold contentPhase at h
  split at h
  · split at h
    · exact absurd h (by simp)
    · split at h
      · exact absurd h (by simp)
      · split at h
        · exact absurd h (by simp)
        · injection h with h
          rw [← h]
  · injection h with h
    rw [← h]

theorem renamePhase_state_finished (ctx : WalkCtx) (p : RawPath)
    (st : WalkState) :
    ((renamePhase ctx p st).state).finished = st.finished := by
  unfold renamePhase
  split
  · rfl
  · split
    · rfl
    · split <;> rfl

theorem walkStep_state_finished (ctx : WalkCtx) (e : Entry) (st : WalkState) :
    ((walkStep ctx e st).state).finished = st.finished := by
  unfold walkStep
  split
  · rfl
  · split
    · rfl
    · dsimp only
      split
      · rfl
      · rename_i st3 heq
        have h1 : st3.finished = st.finished := by
          simpa [setMsg] using contentPhase_ok_finished _ _ _ _ _ heq
        rw [renamePhase_state_finished, h1]

theorem runEntries_state_finished (ctx : WalkCtx) (es : List Entry)
    (st : WalkState) :
    ((runEntries ctx es st).state).finished = st.finished := by
  induction es generalizing st with
  | nil => rfl
  | cons e t ih =>
    cases hw : walkStep ctx e st with
    | ok st2 =>
      have h1 := walkStep_state_finished ctx e st
      rw [hw] at h1
      simp only [StepOutcome.state] at h1
      simp only [runEntries, hw]
      rw [ih st2, h1]
    | fail err st2 =>
      have h1 := walkStep_state_finished ctx e st
      rw [hw] at h1
      simp only [StepOutcome.state] at h1
      simp only [runEntries, hw, StepOutcome.state]
      exact h1
    | panicked m st2 =>
      have h1 := walkStep_state_finished ctx e st
      rw [hw] at h1
      simp only [StepOutcome.state] at h1
      simp only [runEntries, hw, StepOutcome.state]
      exact h1

theorem runEntries_append (ctx : WalkCtx) (l1 l2 : List Entry)
    (st st1 : WalkState) (h : runEntries ctx l1 st = .ok st1) :
    runEntries ctx (l1 ++ l2) st = runEntries ctx l2 st1 := by
  induction l1 generalizing st with
  | nil =>
    simp only [runEntries] at h
    injection h with h
    rw [List.nil_append, h]
  | cons e t ih =>
    simp only [runEntries] at h
    cases hw : walkStep ctx e st with
    | ok st2 =>
      rw [hw] at h
      simp only [List.cons_append, runEntries, hw]
      exact ih st2 h
    | fail err st2 =>
      rw [hw] at h
      exact absurd h (by simp)
    | panicked m st2 =>
      rw [hw] at h
      exact absurd h (by simp)

/-- C6: a failure on any entry aborts the whole walk with no per-file
recovery — the result is the failing step's error and committed state,
independent of the entries after the failing one (prior writes and renames
remain in that state) — the progress bar is not finished on failure, and
`finish_and_clear` marks the state finished exactly when every entry
completes successfully. -/
theorem walk_fail_fast_no_finish (ctx : WalkCtx) (l1 : List Entry) (e : Entry)
    (l2 : List Entry) (st st1 st2 : WalkState) (err : WalkError)
    (h1 : runEntries ctx l1 st = .ok st1)
    (h2 : walkStep ctx e st1 = .fail err st2) :
    walk_dir ctx (l1 ++ e :: l2) st = .fail err st2 ∧
    st2.finished = st.finished ∧
    (∀ es st0 stf, walk_dir ctx es st0 = .ok stf → stf.finished = true) := by
  have hrun : runEntries ctx (l1 ++ e :: l2) st = .fail err st2 := by
    rw [runEntries_append ctx l1 (e :: l2) st st1 h1]
    simp only [runEntries, h2]
  refine ⟨by simp only [walk_dir, hrun], ?_, ?_⟩
  · have ha := walkStep_state_finished ctx e st1
    rw [h2] at ha
    simp only [StepOutcome.state] at ha
    have hb := runEntries_state_finished ctx l1 st
    rw [h1] at hb
    simp only [StepOutcome.state] at hb
    rw [ha, hb]
  · intro es st0 stf hok
    unfold walk_dir at hok
    cases hr : runEntries ctx es st0 with
    | ok s2 =>
      rw [hr] at hok
      injection hok with hh
      rw [← hh]
      rfl
    | fail e2 s2 =>
      rw [hr] at hok
      exact absurd hok (by simp)
    | panicked m s2 =>
      rw [hr] at hok
      exact absurd hok (by simp)

def c6Path : RawPath := .utf8 "p/\x7b\x7bmissing\x7d\x7d"

def c6Ctx : WalkCtx := ⟨"p", [], fun _ => false⟩

def c6State : WalkState :=
  ⟨[(c6Path, "x"), (.utf8 "p/b", "y")], [], false, []⟩

/-- Witness for C6: the first entry's path render fails (unknown
variable), the walk aborts before the second entry is processed, and no
finish is recorded. -/
theorem walk_fail_fast_no_finish_witness :
    walk_dir c6Ctx ([] ++ ⟨c6Path, false⟩ :: [⟨.utf8 "p/b", false⟩]) c6State =
      .fail (.raw (.pathRender "unknown variable missing"))
        (setMsg c6State c6Path.display) ∧
    (setMsg c6State c6Path.display).finished = c6State.finished ∧
    (∀ es st0 stf, walk_dir c6Ctx es st0 = .ok stf → stf.finished = true) :=
  walk_fail_fast_no_finish c6Ctx [] ⟨c6Path, false⟩ [⟨.utf8 "p/b", false⟩]
    c6State c6State (setMsg c6State c6Path.display)
    (.raw (.pathRender "unknown variable missing")) rfl rfl

end Template
